import Mathlib

/-!
Verification of the schema-driven database administration engine
(`app/database.py`, `app/main.py`): parameter coercion, dynamic statement
construction, foreign-key-aware deletes, pack/restore orchestration and the
export paths, embedded shallowly as executable Lean definitions.

Database and file-system effects are represented by explicit event traces and
oracle parameters (connection success, per-statement failure, row counts,
subprocess output); every piece of control flow and string construction is
translated from the Python source.
-/

/-- Values as they occur in request parameters and JSON documents: Python
`None`/`bool`/`int`/`str`/`list`/`dict` after `json.loads`. -/
inductive JVal where
  | null
  | jbool (b : Bool)
  | num (n : Int)
  | str (s : String)
  | arr (items : List JVal)
  | obj (entries : List (String × JVal))

/-- Python truthiness test (`if not params`) on a `JVal`. -/
def pyFalsy : JVal → Bool
  | .null => true
  | .jbool b => !b
  | .num n => n == 0
  | .str s => s.data.isEmpty
  | .arr items => items.isEmpty
  | .obj entries => entries.isEmpty

/-- Insertion into a JSON object under Python `dict` semantics: an existing key
keeps its position and receives the new value, a fresh key is appended. -/
def objInsert : List (String × JVal) → String → JVal → List (String × JVal)
  | [], k, v => [(k, v)]
  | (k0, v0) :: rest, k, v =>
    if k0 == k then (k0, v) :: rest else (k0, v0) :: objInsert rest k v

/-- Skip JSON whitespace. -/
def skipWs : List Char → List Char
  | [] => []
  | c :: rest =>
    if c == ' ' || c == '\n' || c == '\t' || c == '\r' then skipWs rest
    else c :: rest

/-- Characters of a JSON string literal up to the closing quote (escape
sequences are outside the modelled subset). -/
def takeStringLit : List Char → Option (List Char × List Char)
  | [] => none
  | c :: rest =>
    if c == '"' then some ([], rest)
    else
      match takeStringLit rest with
      | some (s, r) => some (c :: s, r)
      | none => none

/-- Longest leading run of decimal digits. -/
def takeDigits : List Char → List Char × List Char
  | [] => ([], [])
  | c :: rest =>
    if c.isDigit then
      match takeDigits rest with
      | (ds, r) => (c :: ds, r)
    else ([], c :: rest)

/-- Numeric value of a decimal digit character. -/
def digitVal (c : Char) : Nat := c.toNat - 48

/-- Value of a decimal digit string, as Python `int()` computes it. -/
def digitsToNat (ds : List Char) : Nat := ds.foldl (fun a c => 10 * a + digitVal c) 0

mutual

/-- Modelled from the spec: the external `json` library used by
`DBManager._prepare_params` and the HTTP layer. Fuel-indexed
recursive-descent parser for the JSON subset the engine exchanges
(null, booleans, integers, escape-free strings, arrays, objects). -/
def parseVal : Nat → List Char → Option (JVal × List Char)
  | 0, _ => none
  | fuel + 1, cs =>
    match skipWs cs with
    | [] => none
    | c :: rest =>
      if c == 'n' then
        match rest with
        | 'u' :: 'l' :: 'l' :: r => some (.null, r)
        | _ => none
      else if c == 't' then
        match rest with
        | 'r' :: 'u' :: 'e' :: r => some (.jbool true, r)
        | _ => none
      else if c == 'f' then
        match rest with
        | 'a' :: 'l' :: 's' :: 'e' :: r => some (.jbool false, r)
        | _ => none
      else if c == '"' then
        match takeStringLit rest with
        | some (s, r) => some (.str (String.mk s), r)
        | none => none
      else if c == '[' then
        match skipWs rest with
        | ']' :: r => some (.arr [], r)
        | cs2 =>
          match parseItems fuel cs2 with
          | some (vs, r) => some (.arr vs, r)
          | none => none
      else if c == '{' then
        match skipWs rest with
        | '}' :: r => some (.obj [], r)
        | cs2 =>
          match parseMembers fuel cs2 with
          | some (ms, r) =>
            some (.obj (ms.foldl (fun acc kv => objInsert acc kv.1 kv.2) []), r)
          | none => none
      else if c == '-' then
        match takeDigits rest with
        | ([], _) => none
        | (ds, r) => some (.num (-(digitsToNat ds : Int)), r)
      else if c.isDigit then
        match takeDigits (c :: rest) with
        | (ds, r) => some (.num ((digitsToNat ds : Int)), r)
      else none

/-- Comma-separated array items after the opening bracket. -/
def parseItems : Nat → List Char → Option (List JVal × List Char)
  | 0, _ => none
  | fuel + 1, cs =>
    match parseVal fuel cs with
    | none => none
    | some (v, r) =>
      match skipWs r with
      | ',' :: r2 =>
        match parseItems fuel r2 with
        | some (vs, r3) => some (v :: vs, r3)
        | none => none
      | ']' :: r2 => some ([v], r2)
      | _ => none

/-- Comma-separated object members after the opening brace. -/
def parseMembers : Nat → List Char → Option (List (String × JVal) × List Char)
  | 0, _ => none
  | fuel + 1, cs =>
    match skipWs cs with
    | '"' :: r =>
      match takeStringLit r with
      | none => none
      | some (k, r2) =>
        match skipWs r2 with
        | ':' :: r3 =>
          match parseVal fuel r3 with
          | none => none
          | some (v, r4) =>
            match skipWs r4 with
            | ',' :: r5 =>
              match parseMembers fuel r5 with
              | some (ms, r6) => some ((String.mk k, v) :: ms, r6)
              | none => none
            | '}' :: r5 => some ([(String.mk k, v)], r5)
            | _ => none
        | _ => none
    | _ => none

end

/-- Modelled from the spec: Python `json.loads` on the subset above; `none`
is a `json.JSONDecodeError`. -/
def json_loads (s : String) : Option JVal :=
  match parseVal (2 * s.length + 4) s.data with
  | some (v, rest) => if (skipWs rest).isEmpty then some v else none
  | none => none

/-- The decimal digit character for `d < 10`. -/
def digitChar (d : Nat) : Char := Char.ofNat (48 + d)

/-- Decimal digit expansion, fuel-indexed so that it reduces structurally;
`fuel` only needs to exceed the number of digits. -/
def natToDigitsAux : Nat → Nat → List Char
  | 0, _ => []
  | fuel + 1, n =>
    if n < 10 then [digitChar n]
    else natToDigitsAux fuel (n / 10) ++ [digitChar (n % 10)]

/-- Decimal digit expansion of a natural number (most significant first),
the character content of Python `str(k)` for a non-negative int. -/
def natToDigits (n : Nat) : List Char := natToDigitsAux (n + 1) n

/-- Python `str(k)` for a non-negative int `k`. -/
def natToStr (n : Nat) : String := String.mk (natToDigits n)

/-- Python `int(k)` on a digit string. -/
def strToNat (s : String) : Nat := digitsToNat s.data

/-- Python `str.isdigit()` (restricted to ASCII digit strings). -/
def isDigitStr (s : String) : Bool := !s.data.isEmpty && s.data.all Char.isDigit

/-- Ascending insertion into a sorted list of naturals. -/
def insertAsc (x : Nat) : List Nat → List Nat
  | [] => [x]
  | y :: rest => if x ≤ y then x :: y :: rest else y :: insertAsc x rest

/-- Python `sorted` on a list of ints: the ascending reordering. -/
def pySorted : List Nat → List Nat
  | [] => []
  | x :: rest => insertAsc x (pySorted rest)

/-- Result shapes of `DBManager._prepare_params`: Python `None`, a tuple of
positional values, a named-parameter dict passed through, or the raw input
returned as-is. -/
inductive Prep where
  | pnone
  | tup (items : List JVal)
  | dict (entries : List (String × JVal))
  | raw (v : JVal)

/-- The dict branch of `_prepare_params`: if every key is a digit string,
sort the int keys ascending and look each up as `params[str(k)]` (a missing
canonical key is a `KeyError`, caught by the fallback which returns the dict
unchanged); otherwise return the dict unchanged. -/
def dictBranch (es : List (String × JVal)) : Prep :=
  if es.all (fun kv => isDigitStr kv.1) then
    match (pySorted (es.map (fun kv => strToNat kv.1))).mapM
        (fun k => es.lookup (natToStr k)) with
    | some vals => .tup vals
    | none => .dict es
  else .dict es

/-- `DBManager._prepare_params` (database.py:87-118). `fuel` bounds the
modelled depth of string re-parsing only; each theorem supplies enough. -/
def prepare_params (fuel : Nat) (p : JVal) : Prep :=
  if pyFalsy p then .pnone
  else
    match p with
    | .obj es => dictBranch es
    | .arr l => .tup l
    | .str s =>
      match fuel with
      | 0 => .raw (.str s)
      | f + 1 =>
        match json_loads s with
        | some v => prepare_params f v
        | none => .raw (.str s)
    | v => .raw v

/-- The numeric-keyed mapping `{str(off+i): l[i]}` in canonical (ascending)
insertion order, starting at position `off`. -/
def canonFrom (off : Nat) : List JVal → List (String × JVal)
  | [] => []
  | v :: rest => (natToStr off, v) :: canonFrom (off + 1) rest

/-- A positional argument list transported as a mapping with digit-string
keys `"0", "1", ...`. -/
def canonicalMap (l : List JVal) : List (String × JVal) := canonFrom 0 l

/-- One row of `information_schema.columns` as `DBManager.get_table_info`
returns it (`is_nullable` is the literal `"YES"`/`"NO"` string). -/
structure ColInfo where
  column_name : String
  data_type : String
  is_nullable : String
deriving Repr, DecidableEq

/-- `nullable_columns` as computed by `DBManager.add_row` (database.py:220):
only columns whose `is_nullable` is `"YES"`. -/
def add_nullable_columns (cols : List ColInfo) : List String :=
  (cols.filter (fun c => c.is_nullable == "YES")).map (fun c => c.column_name)

/-- `nullable_columns` as computed by `DBManager.modify_row` (database.py:270):
every column name, with no filter on `is_nullable`. -/
def modify_nullable_columns (cols : List ColInfo) : List String :=
  cols.map (fun c => c.column_name)

/-- Python `value is not None and value != ''`. -/
def keepVal : JVal → Bool
  | .null => false
  | .str s => !s.data.isEmpty
  | _ => true

/-- The shared null-vs-omit loop of `add_row`/`modify_row`: keep a non-empty
value, turn an empty/None value into a bound NULL when its key is in
`nullable`, and drop it otherwise. -/
def filterData (nullable : List String) (data : List (String × JVal)) :
    List (String × JVal) :=
  data.filterMap (fun kv =>
    if keepVal kv.2 then some kv
    else if nullable.contains kv.1 then some (kv.1, JVal.null)
    else none)

/-- Python `not condition or condition.strip() == ""`: the condition string
is empty or whitespace-only (`List.all` on the empty list is `true`, covering
`not condition`). -/
def emptyCondition (cond : String) : Bool := cond.data.all Char.isWhitespace

/-- Double-quoted SQL identifier, as every f-string in `database.py` embeds
table and column names. -/
def quoteIdent (s : String) : String := "\"" ++ s ++ "\""

/-- The INSERT text built by `DBManager.add_row` (database.py:233-240) from
the filtered column-value pairs. -/
def add_row_sql (table : String) (pk : Option String) (fd : List (String × JVal)) :
    String :=
  let columns := String.intercalate ", " (fd.map (fun kv => quoteIdent kv.1))
  let placeholders := String.intercalate ", " (fd.map (fun _ => "%s"))
  match pk with
  | some p =>
    "INSERT INTO " ++ quoteIdent table ++ " (" ++ columns ++ ") VALUES (" ++
      placeholders ++ ") RETURNING " ++ quoteIdent p
  | none =>
    "INSERT INTO " ++ quoteIdent table ++ " (" ++ columns ++ ") VALUES (" ++
      placeholders ++ ")"

/-- The UPDATE text built by `DBManager.modify_row` (database.py:283-291). -/
def modify_row_sql (table cond : String) (cd : List (String × JVal)) : String :=
  let set_clause := String.intercalate ", " (cd.map (fun kv => quoteIdent kv.1 ++ " = %s"))
  "UPDATE " ++ quoteIdent table ++ " SET " ++ set_clause ++ " WHERE " ++ cond

/-- `DELETE FROM "table" WHERE condition` (database.py:341, 406). -/
def delete_sql (table cond : String) : String :=
  "DELETE FROM " ++ quoteIdent table ++ " WHERE " ++ cond

/-- One inbound foreign-key edge as returned by
`DBManager.get_related_tables`. -/
structure Edge where
  referencing_table : String
  referencing_column : String
deriving Repr, DecidableEq

/-- The per-edge cascade DELETE of `DBManager.remove_row` (database.py:331-337):
the correlated subquery selects the primary key when one exists, else the
referencing column name. -/
def cascade_delete_sql (table cond : String) (pk : Option String) (e : Edge) : String :=
  let subCol := match pk with | some p => p | none => e.referencing_column
  "DELETE FROM " ++ quoteIdent e.referencing_table ++ " WHERE " ++
    quoteIdent e.referencing_column ++ " IN (SELECT " ++ quoteIdent subCol ++
    " FROM " ++ quoteIdent table ++ " WHERE " ++ cond ++ ")"

/-- The per-edge COUNT check of `DBManager.safe_remove` (database.py:378-384). -/
def check_sql (table cond : String) (pk : Option String) (e : Edge) : String :=
  let subCol := match pk with | some p => p | none => e.referencing_column
  "SELECT COUNT(*) FROM " ++ quoteIdent e.referencing_table ++ " WHERE " ++
    quoteIdent e.referencing_column ++ " IN (SELECT " ++ quoteIdent subCol ++
    " FROM " ++ quoteIdent table ++ " WHERE " ++ cond ++ ")"

/-- Chronological trace of database interactions performed by one operation:
the main connection attempt, schema-catalog queries issued through `run_sql`
on their own connections (recorded by method name), statements executed on
the main cursor (tagged by the construction site in the source), commit and
close. A statement that raises is not recorded; its absence plus the missing
`commit` model the aborted transaction. -/
inductive Event where
  | connect
  | introspection (method : String)
  | exec_query (sql : String)
  | exec_insert (sql : String)
  | exec_update (sql : String)
  | exec_delete (sql : String)
  | commit
  | close
deriving Repr, DecidableEq

/-- Projection used to state which DELETE statements a trace executed. -/
def deleteSqlOf : Event → Option String
  | Event.exec_delete s => some s
  | _ => none

/-- The `{ok, changed, msg}` dict returned by `modify_row`/`remove_row`
(`changed` defaults to 0 on the failure shapes, which omit the key). -/
structure UpdateResult where
  ok : Bool
  changed : Nat
  msg : String
deriving Repr, DecidableEq

/-- The result dict of `safe_remove`; `has_relations`/`relations` model the
keys that are present only on the relationship-conflict shape. -/
structure SafeRemoveResult where
  ok : Bool
  changed : Nat
  msg : String
  has_relations : Bool
  relations : List (String × String × Nat)
deriving Repr, DecidableEq

/-- `DBManager.modify_row` (database.py:263-311). Oracles: `cols` is what
`get_table_info` returns, `connOk` whether `psycopg2.connect` succeeds,
`execErr` the driver error raised by `cursor.execute` (if any), `rowcount`
the driver rowcount of the UPDATE. -/
def modify_row (table cond : String) (cols : List ColInfo)
    (data : List (String × JVal)) (connOk : Bool) (execErr : Option String)
    (rowcount : Nat) : UpdateResult × List Event :=
  if emptyCondition cond then (⟨false, 0, "Condition cannot be empty"⟩, [])
  else
    let intro := [Event.introspection "get_table_info"]
    let clean := filterData (modify_nullable_columns cols) data
    if clean.isEmpty then (⟨false, 0, "No data to update"⟩, intro)
    else
      let sql := modify_row_sql table cond clean
      if !connOk then (⟨false, 0, "Cannot connect to DB"⟩, intro)
      else
        match execErr with
        | some e => (⟨false, 0, e⟩, intro ++ [Event.connect])
        | none =>
          (⟨true, rowcount, "Updated " ++ natToStr rowcount ++ " records"⟩,
           intro ++ [Event.connect, Event.exec_update sql, Event.commit, Event.close])

/-- The two events of one cascade-loop iteration in `remove_row`:
`get_table_pk` runs via `run_sql`, then the edge DELETE executes on the main
cursor. -/
def cascadeStep (table cond : String) (pk : Option String) (e : Edge) : List Event :=
  [Event.introspection "get_table_pk", Event.exec_delete (cascade_delete_sql table cond pk e)]

/-- `DBManager.remove_row` (database.py:313-356). `failsAt = some i` makes
the i-th `cursor.execute` call raise with driver text `errText` (an index
past the statement sequence means no failure); `rowcountOf j` is the driver
rowcount after the j-th statement, the target DELETE being the last one. -/
def remove_row (table cond : String) (cascade : Bool) (edges : List Edge)
    (pk : Option String) (connOk : Bool) (failsAt : Option Nat) (errText : String)
    (rowcountOf : Nat → Nat) : UpdateResult × List Event :=
  if emptyCondition cond then (⟨false, 0, "Condition cannot be empty"⟩, [])
  else if !connOk then (⟨false, 0, "Cannot connect to DB"⟩, [])
  else
    let useEdges := if cascade then edges else []
    let pre := [Event.connect] ++
      (if cascade then [Event.introspection "get_related_tables"] else [])
    let steps := useEdges.map (cascadeStep table cond pk) ++
      [[Event.exec_delete (delete_sql table cond)]]
    let total := useEdges.length + 1
    let finish : UpdateResult × List Event :=
      (⟨true, rowcountOf useEdges.length,
        "Removed " ++ natToStr (rowcountOf useEdges.length) ++ " records"⟩,
       pre ++ steps.flatten ++ [Event.commit, Event.close])
    match failsAt with
    | some i =>
      if i < total then
        let extra := if i < useEdges.length then [Event.introspection "get_table_pk"] else []
        (⟨false, 0, errText⟩, pre ++ (steps.take i).flatten ++ extra)
      else finish
    | none => finish

/-- Evaluating `cursor.fetchone()[0]` on the COUNT row in `safe_remove`
(database.py:387): the connection was opened with the default
`dict_mode=True`, so the cursor factory is `psycopg2.extras.RealDictCursor`,
whose rows are plain dicts without positional access; indexing the row with
the int `0` raises `KeyError(0)`, and `str(KeyError(0))` is the text `"0"`.
The count value `c` held under the `"count"` key is never reached. -/
def fetchCountViaIntIndex (_c : Nat) : Except String Nat := Except.error "0"

/-- The per-edge check loop of `safe_remove` (database.py:374-395): for each
inbound edge run `get_table_pk`, execute the COUNT statement, fetch the
count, and accumulate the blocking-edge records for every nonzero count.
An exception carries the events that happened before it was raised. -/
def safe_remove_checks (table cond : String) (pk : Option String)
    (countOf : Edge → Nat) :
    List Edge → Except (String × List Event) (List (String × String × Nat) × List Event)
  | [] => Except.ok ([], [])
  | e :: rest =>
    let evs := [Event.introspection "get_table_pk",
                Event.exec_query (check_sql table cond pk e)]
    match fetchCountViaIntIndex (countOf e) with
    | Except.error m => Except.error (m, evs)
    | Except.ok c =>
      match safe_remove_checks table cond pk countOf rest with
      | Except.error (m, evs2) => Except.error (m, evs ++ evs2)
      | Except.ok (infos, evs2) =>
        Except.ok ((if c > 0 then [(e.referencing_table, e.referencing_column, c)] else [])
          ++ infos, evs ++ evs2)

/-- `DBManager.safe_remove` (database.py:358-424). `countOf` is the COUNT
the database would return per edge, `rowcountTarget` the rowcount of the
target DELETE. -/
def safe_remove (table cond : String) (edges : List Edge) (pk : Option String)
    (countOf : Edge → Nat) (rowcountTarget : Nat) : SafeRemoveResult × List Event :=
  if emptyCondition cond then (⟨false, 0, "Condition cannot be empty", false, []⟩, [])
  else
    let pre := [Event.connect, Event.introspection "get_related_tables"]
    match safe_remove_checks table cond pk countOf edges with
    | Except.error (m, evs) => (⟨false, 0, m, false, []⟩, pre ++ evs)
    | Except.ok (infos, evs) =>
      if infos.isEmpty then
        (⟨true, rowcountTarget, "Removed " ++ natToStr rowcountTarget ++ " records",
          false, []⟩,
         pre ++ evs ++ [Event.exec_delete (delete_sql table cond), Event.commit, Event.close])
      else
        (⟨false, 0, "Found related records", true, infos⟩, pre ++ evs ++ [Event.close])

/-- `DBManager.add_row` (database.py:213-261). Returns the inserted id (the
RETURNING value `newId` when a primary key exists) or `None` for every
failure shape and for tables without a primary key. -/
def add_row (table : String) (cols : List ColInfo) (pk : Option String)
    (data : List (String × JVal)) (connOk : Bool) (execErr : Option String)
    (newId : Option JVal) : Option JVal × List Event :=
  if cols.isEmpty then (none, [Event.introspection "get_table_info"])
  else
    let fd := filterData (add_nullable_columns cols) data
    if fd.isEmpty then (none, [Event.introspection "get_table_info"])
    else
      let sql := add_row_sql table pk fd
      let pre := [Event.introspection "get_table_info", Event.introspection "get_table_pk"]
      if !connOk then (none, pre)
      else
        match execErr with
        | some _ => (none, pre ++ [Event.connect])
        | none =>
          let rid := match pk with | some _ => newId | none => none
          (rid, pre ++ [Event.connect, Event.exec_insert sql, Event.commit, Event.close])

/-- The JSON body shape of `POST /api/add` responses (`main.py:127-151`);
`rid` models the `id` key, present only when `db.add_row` returned a value. -/
structure ApiAddResult where
  ok : Bool
  msg : String
  rid : Option JVal

/-- The empty-string-to-None pre-conversion the `/api/add` and `/api/modify`
handlers apply to nullable columns before calling the builder
(`main.py:141-143`). -/
def api_preconvert (nullable : List String) (data : List (String × JVal)) :
    List (String × JVal) :=
  data.map (fun kv =>
    if (match kv.2 with | JVal.str s => s.data.isEmpty | _ => false)
        && nullable.contains kv.1
    then (kv.1, JVal.null) else kv)

/-- The `POST /api/add` handler (`main.py:127-151`): both the some-id and the
None result of `db.add_row` are answered with `ok: true` and the success
message; only a missing table name (or a handler-level exception) produces
`ok: false`. -/
def api_add (table : Option String) (data : List (String × JVal))
    (cols : List ColInfo) (pk : Option String) (connOk : Bool)
    (execErr : Option String) (newId : Option JVal) : ApiAddResult × List Event :=
  match table with
  | none => (⟨false, "Table required", none⟩, [])
  | some t =>
    if t.data.isEmpty then (⟨false, "Table required", none⟩, [])
    else
      let nullable := add_nullable_columns cols
      let data2 := api_preconvert nullable data
      let r := add_row t cols pk data2 connOk execErr newId
      (⟨true, "Запись добавлена", r.1⟩, [Event.introspection "get_table_info"] ++ r.2)

/-- One entry of the `results` list built by `DBManager.pack_tables`: either
the per-table success dict or the error string appended on failure. -/
inductive PackEntry where
  | okEntry (table backup_file excel_file json_file : String) (rows : Nat)
  | errEntry (msg : String)
deriving Repr, DecidableEq

/-- Whether an entry is the success dict (`status == 'ok'`). -/
def PackEntry.isOk : PackEntry → Bool
  | okEntry .. => true
  | errEntry _ => false

/-- File-system and subprocess steps of the pack workflow, per table, plus
the manifest write. -/
inductive PackEv where
  | backup (table : String)
  | excelWrite (table : String)
  | jsonWrite (table : String)
  | dropTable (table : String)
  | manifestWrite
deriving Repr, DecidableEq

/-- The `pack_info` manifest dict written by `pack_tables`
(database.py:940-953). -/
structure PackInfo where
  time : String
  packed : Nat
  total : Nat
  results : List PackEntry
deriving Repr, DecidableEq

/-- The `(ok, payload)` pair returned by `pack_tables`: `failure` carries the
error string, `success` the result dict (used for both full and partial
success). -/
inductive PackOutcome where
  | failure (msg : String)
  | success (msg folder : String) (packed total : Nat) (details : List PackEntry)
deriving Repr, DecidableEq

/-- The per-table body of the `pack_tables` loop (database.py:883-938):
backup first — on failure record the error string and skip the rest — then
the xlsx snapshot (written only when the table has rows), the json snapshot
(always written), and the drop, whose failure also records an error string.
Oracles: `backupErr t` is the error of `create_single_table_backup` (if
any), `backupFileOf t` the produced backup file name, `rowsOf t` the row
count of `get_table_rows`, `dropOk t` whether `drop_table_completely`
succeeds; `ts` stands for the strftime timestamps used in file names. -/
def pack_step (backupErr : String → Option String) (backupFileOf : String → String)
    (rowsOf : String → Nat) (dropOk : String → Bool) (ts : String) (t : String) :
    PackEntry × List PackEv :=
  match backupErr t with
  | some e => (.errEntry ("Backup error for \x27" ++ t ++ "\x27: " ++ e), [.backup t])
  | none =>
    let rows := rowsOf t
    let evs := [PackEv.backup t] ++ (if rows > 0 then [PackEv.excelWrite t] else []) ++
      [PackEv.jsonWrite t, PackEv.dropTable t]
    if dropOk t then
      (.okEntry t (backupFileOf t) (t ++ "_" ++ ts ++ ".xlsx") (t ++ "_" ++ ts ++ ".json") rows,
       evs)
    else
      (.errEntry ("Error dropping table \x27" ++ t ++ "\x27"), evs)

/-- `DBManager.pack_tables` (database.py:865-976). `present t` is
`table_present t`; `folder` the timestamped archive directory. The manifest
(second component) is written after the loop in every reachable branch,
before the ok/partial/failure decision. -/
def pack_tables (present : String → Bool) (backupErr : String → Option String)
    (backupFileOf : String → String) (rowsOf : String → Nat)
    (dropOk : String → Bool) (folder ts : String) (table_names : List String) :
    PackOutcome × Option PackInfo × List PackEv :=
  if table_names.isEmpty then (.failure "No tables selected", none, [])
  else
    let valid := table_names.filter present
    if valid.isEmpty then (.failure "No valid tables found", none, [])
    else
      let prs := valid.map (pack_step backupErr backupFileOf rowsOf dropOk ts)
      let results := prs.map Prod.fst
      let evs := (prs.map Prod.snd).flatten ++ [PackEv.manifestWrite]
      let packed := (results.filter PackEntry.isOk).length
      let total := valid.length
      let info : PackInfo := ⟨ts, packed, total, results⟩
      let all_good := results.all PackEntry.isOk
      if all_good then
        (.success "Pack complete" folder packed total results, some info, evs)
      else if packed > 0 then
        (.success ("Partially packed: " ++ natToStr packed ++ " of " ++ natToStr total)
          folder packed total results, some info, evs)
      else
        (.failure "Failed to pack any tables", some info, evs)

/-- Steps of `restore_from_backup`: dropping one existing table, the commit
of the drop transaction, and the `pg_restore` subprocess invocation. -/
inductive RestoreEv where
  | dropOne (table : String)
  | dropCommit
  | runRestore
deriving Repr, DecidableEq

/-- The benign warning substring special-cased by `restore_from_backup`
(database.py:771). -/
def transaction_timeout_warning : String :=
  "unrecognized configuration parameter \"transaction_timeout\""

/-- Python `pat in hay` substring test on character lists. -/
def isSubstr (pat : List Char) : List Char → Bool
  | [] => pat.isEmpty
  | c :: rest => pat.isPrefixOf (c :: rest) || isSubstr pat rest

/-- Python `pat in hay` on strings. -/
def strContains (hay pat : String) : Bool := isSubstr pat.data hay.data

/-- `DBManager.restore_from_backup` (database.py:716-783). Oracles: `tables`
the existing public tables, `dropFailsAt = some i` an exception at the i-th
drop (caught: the drop loop stops, its transaction is never committed, and
the restore still runs), `returncode`/`stdout`/`stderr` the `pg_restore`
subprocess outcome. -/
def restore_from_backup (backup_file : String) (fileExists : Bool)
    (tables : List String) (dropFailsAt : Option Nat) (returncode : Nat)
    (stdout stderr : String) : (Bool × String) × List RestoreEv :=
  if !fileExists then ((false, "File not found: " ++ backup_file), [])
  else
    let dropEvs :=
      match dropFailsAt with
      | none => (tables.map RestoreEv.dropOne) ++ [RestoreEv.dropCommit]
      | some i => (tables.take i).map RestoreEv.dropOne
    let evs := dropEvs ++ [RestoreEv.runRestore]
    let output := stdout ++ stderr
    if strContains output transaction_timeout_warning then
      ((true, "Restored (some warnings ignored)"), evs)
    else if returncode == 0 then
      ((true, "Restore successful"), evs)
    else
      ((false, "pg_restore error:\n" ++ stderr ++ "\n" ++ stdout), evs)

/-- `DBManager.save_query_to_xlsx` (database.py:554-615): empty data and
connection failure short-circuit; a staging-table failure rolls back and
reports `Error: ...`; otherwise the workbook `query_name_<ts>.xlsx` is
written in the export directory and `(filepath, filename)` returned. -/
def save_query_to_xlsx (result_data : List (List (String × JVal)))
    (query_name dir ts : String) (connOk : Bool) (stagingErr : Option String) :
    Option String × String :=
  if result_data.isEmpty then (none, "No data to save")
  else if !connOk then (none, "Connection error")
  else
    match stagingErr with
    | some e => (none, "Error: " ++ e)
    | none =>
      let filename := query_name ++ "_" ++ ts ++ ".xlsx"
      (some (dir ++ "/" ++ filename), filename)

/-- `DBManager.save_query_to_csv` (database.py:617-625): delegates unchanged
to the xlsx staging-table path with the fixed name `query_result`. -/
def save_query_to_csv (result_data : List (List (String × JVal)))
    (dir ts : String) (connOk : Bool) (stagingErr : Option String) :
    Option String × String :=
  if result_data.isEmpty then (none, "No data to save")
  else save_query_to_xlsx result_data "query_result" dir ts connOk stagingErr

/-- The download file name the `POST /api/save_sql` handler attaches under
`format == "csv"` (`main.py:340`). -/
def save_sql_result_download_name (ts : String) : String :=
  "sql_result_" ++ ts ++ ".xlsx"

theorem digitChar_isDigit {d : Nat} (h : d < 10) : (digitChar d).isDigit = true := by
  interval_cases d <;> decide

theorem digitVal_digitChar {d : Nat} (h : d < 10) : digitVal (digitChar d) = d := by
  interval_cases d <;> decide

theorem digitsToNat_append (ds : List Char) (c : Char) :
    digitsToNat (ds ++ [c]) = 10 * digitsToNat ds + digitVal c := by
  simp [digitsToNat, List.foldl_append]

theorem natToDigitsAux_spec : ∀ fuel n, n < fuel →
    digitsToNat (natToDigitsAux fuel n) = n ∧ natToDigitsAux fuel n ≠ [] ∧
    (natToDigitsAux fuel n).all Char.isDigit = true := by
  intro fuel
  induction fuel with
  | zero => intro n h; omega
  | succ f ih =>
    intro n h
    by_cases h10 : n < 10
    · refine ⟨?_, by simp [natToDigitsAux, h10], ?_⟩
      · simp [natToDigitsAux, h10, digitsToNat, digitVal_digitChar h10]
      · simp [natToDigitsAux, h10, digitChar_isDigit h10]
    · have hlt : n / 10 < f := by omega
      obtain ⟨h1, h2, h3⟩ := ih (n / 10) hlt
      refine ⟨?_, by simp [natToDigitsAux, h10], ?_⟩
      · rw [natToDigitsAux, if_neg h10, digitsToNat_append, h1,
          digitVal_digitChar (by omega)]
        omega
      · rw [natToDigitsAux, if_neg h10, List.all_append, h3]
        simp [digitChar_isDigit (show n % 10 < 10 by omega)]

theorem strToNat_natToStr (n : Nat) : strToNat (natToStr n) = n := by
  have := (natToDigitsAux_spec (n + 1) n (by omega)).1
  simpa [strToNat, natToStr, natToDigits] using this

theorem natToStr_injective : Function.Injective natToStr := by
  intro a b h
  have ha := strToNat_natToStr a
  have hb := strToNat_natToStr b
  rw [h] at ha
  omega

theorem isDigitStr_natToStr (n : Nat) : isDigitStr (natToStr n) = true := by
  obtain ⟨-, h2, h3⟩ := natToDigitsAux_spec (n + 1) n (by omega)
  simp only [isDigitStr, natToStr, natToDigits, Bool.and_eq_true]
  exact ⟨by simpa using h2, h3⟩

theorem insertAsc_perm (x : Nat) (l : List Nat) : (insertAsc x l).Perm (x :: l) := by
  induction l with
  | nil => simp [insertAsc]
  | cons y rest ih =>
    simp only [insertAsc]
    by_cases h : x ≤ y
    · simp [h]
    · rw [if_neg h]
      exact (ih.cons y).trans (List.Perm.swap x y rest)

theorem insertAsc_sorted {x : Nat} {l : List Nat} (h : l.Sorted (· ≤ ·)) :
    (insertAsc x l).Sorted (· ≤ ·) := by
  induction l with
  | nil => simp [insertAsc]
  | cons y rest ih =>
    rw [List.sorted_cons] at h
    obtain ⟨hy, hrest⟩ := h
    simp only [insertAsc]
    by_cases hxy : x ≤ y
    · rw [if_pos hxy, List.sorted_cons]
      refine ⟨?_, List.sorted_cons.mpr ⟨hy, hrest⟩⟩
      intro b hb
      rcases List.mem_cons.mp hb with rfl | hb2
      · exact hxy
      · exact hxy.trans (hy b hb2)
    · rw [if_neg hxy, List.sorted_cons]
      constructor
      · intro b hb
        rcases List.mem_cons.mp ((insertAsc_perm x rest).mem_iff.mp hb) with rfl | hb2
        · omega
        · exact hy b hb2
      · exact ih hrest

theorem pySorted_perm (l : List Nat) : (pySorted l).Perm l := by
  induction l with
  | nil => rfl
  | cons x rest ih =>
    exact (insertAsc_perm x (pySorted rest)).trans (ih.cons x)

theorem pySorted_sorted (l : List Nat) : (pySorted l).Sorted (· ≤ ·) := by
  induction l with
  | nil => simp [pySorted]
  | cons x rest ih => exact insertAsc_sorted ih

theorem pySorted_eq_range {l : List Nat} {n : Nat} (h : l.Perm (List.range n)) :
    pySorted l = List.range n :=
  List.eq_of_perm_of_sorted ((pySorted_perm l).trans h) (pySorted_sorted l)
    ((List.pairwise_lt_range n).imp fun hab => le_of_lt hab)

theorem canonFrom_length (l : List JVal) : ∀ off, (canonFrom off l).length = l.length := by
  induction l with
  | nil => intro off; rfl
  | cons v rest ih => intro off; simp [canonFrom, ih]

theorem canonFrom_mem {l : List JVal} : ∀ {off : Nat} {kv : String × JVal},
    kv ∈ canonFrom off l → ∃ j, off ≤ j ∧ j < off + l.length ∧ kv.1 = natToStr j := by
  induction l with
  | nil => intro off kv h; simp [canonFrom] at h
  | cons v rest ih =>
    intro off kv h
    rcases List.mem_cons.mp h with rfl | h2
    · exact ⟨off, le_refl off, by simp, rfl⟩
    · obtain ⟨j, hj1, hj2, hj3⟩ := ih h2
      exact ⟨j, by omega, by simp; omega, hj3⟩

theorem canonFrom_keys_nodup (l : List JVal) : ∀ off,
    ((canonFrom off l).map Prod.fst).Nodup := by
  induction l with
  | nil => intro off; simp [canonFrom]
  | cons v rest ih =>
    intro off
    simp only [canonFrom, List.map_cons, List.nodup_cons]
    constructor
    · intro hmem
      obtain ⟨kv, hkv, hfst⟩ := List.mem_map.mp hmem
      obtain ⟨j, hj1, _, hj3⟩ := canonFrom_mem hkv
      rw [hj3] at hfst
      have := natToStr_injective hfst
      omega
    · exact ih (off + 1)

theorem canonFrom_map_strToNat (l : List JVal) : ∀ off,
    (canonFrom off l).map (fun kv => strToNat kv.1) = List.range' off l.length := by
  induction l with
  | nil => intro off; simp [canonFrom]
  | cons v rest ih =>
    intro off
    simp [canonFrom, List.range', strToNat_natToStr, ih]

theorem canonFrom_lookup (l : List JVal) : ∀ off k, k < l.length →
    (canonFrom off l).lookup (natToStr (off + k)) = some (l.getD k JVal.null) := by
  induction l with
  | nil => intro off k h; simp at h
  | cons v rest ih =>
    intro off k h
    cases k with
    | zero => simp [canonFrom, List.lookup]
    | succ k2 =>
      have hne : natToStr (off + (k2 + 1)) ≠ natToStr off := by
        intro hEq
        have := natToStr_injective hEq
        omega
      have hbeq : (natToStr (off + (k2 + 1)) == natToStr off) = false := by
        simpa using hne
      rw [canonFrom, List.lookup, hbeq]
      have := ih (off + 1) k2 (by simpa using Nat.lt_of_succ_lt_succ h)
      rw [show off + 1 + k2 = off + (k2 + 1) by omega] at this
      simpa using this

theorem lookup_eq_of_perm {α β : Type} [BEq α] [LawfulBEq α]
    {l1 l2 : List (α × β)} (h : l1.Perm l2) (hnd : (l2.map Prod.fst).Nodup) (a : α) :
    l1.lookup a = l2.lookup a := by
  induction h with
  | nil => rfl
  | cons x h2 ih =>
    simp only [List.map_cons, List.nodup_cons] at hnd
    by_cases hx : a == x.1
    · cases x; simp [List.lookup, hx]
    · cases x
      simp only [List.lookup]
      rw [Bool.of_not_eq_true hx]
      exact ih hnd.2
  | swap x y t =>
    obtain ⟨x1, x2⟩ := x
    obtain ⟨y1, y2⟩ := y
    rw [List.map_cons, List.map_cons, List.nodup_cons] at hnd
    have hxy : x1 ≠ y1 := fun hEq => hnd.1 (by rw [hEq]; exact List.mem_cons_self _ _)
    cases hbx : (a == x1) with
    | true =>
      have hby : (a == y1) = false := by
        have hax : a = x1 := eq_of_beq hbx
        subst hax
        simpa using hxy
      simp [List.lookup, hbx, hby]
    | false => simp [List.lookup, hbx]
  | @trans la lb lc h1 h2 ih1 ih2 =>
    have hndb : (lb.map Prod.fst).Nodup := ((h2.map Prod.fst).nodup_iff).mpr hnd
    rw [ih1 hndb, ih2 hnd]

theorem mapM_eq_some_map {f : Nat → Option JVal} {g : Nat → JVal} :
    ∀ ks : List Nat, (∀ k ∈ ks, f k = some (g k)) → ks.mapM f = some (ks.map g) := by
  intro ks
  induction ks with
  | nil => intro _; rfl
  | cons k rest ih =>
    intro h
    rw [List.mapM_cons, h k (by simp), ih (fun x hx => h x (by simp [hx]))]
    rfl

theorem map_getD_range (l : List JVal) :
    (List.range l.length).map (fun k => l.getD k JVal.null) = l := by
  induction l with
  | nil => rfl
  | cons v rest ih =>
    have hcomp : ((fun k => (v :: rest).getD k JVal.null) ∘ Nat.succ)
        = fun k => rest.getD k JVal.null := by
      funext k
      simp [List.getD_cons_succ]
    rw [List.length_cons, List.range_succ_eq_map, List.map_cons, List.map_map,
      hcomp, ih, List.getD_cons_zero]

theorem dictBranch_canonical {l : List JVal} {es : List (String × JVal)}
    (hes : es.Perm (canonicalMap l)) : dictBranch es = Prep.tup l := by
  have hall : es.all (fun kv => isDigitStr kv.1) = true := by
    rw [List.all_eq_true]
    intro kv hkv
    obtain ⟨j, _, _, hj⟩ := canonFrom_mem (hes.mem_iff.mp hkv)
    rw [hj]
    exact isDigitStr_natToStr j
  have hperm : (es.map (fun kv => strToNat kv.1)).Perm (List.range l.length) := by
    have h1 := hes.map (fun kv => strToNat kv.1)
    simp only [canonicalMap] at h1
    rw [canonFrom_map_strToNat l 0] at h1
    rwa [← List.range_eq_range'] at h1
  have hsorted : pySorted (es.map (fun kv => strToNat kv.1)) = List.range l.length :=
    pySorted_eq_range hperm
  have hlookup : ∀ k ∈ List.range l.length,
      es.lookup (natToStr k) = some (l.getD k JVal.null) := by
    intro k hk
    rw [lookup_eq_of_perm hes (canonFrom_keys_nodup l 0) (natToStr k)]
    have h2 := canonFrom_lookup l 0 k (List.mem_range.mp hk)
    simpa using h2
  unfold dictBranch
  rw [if_pos hall, hsorted, mapM_eq_some_map (List.range l.length) hlookup,
    map_getD_range]

/-- **C2.** For every logical argument list, all parameter shapes representing
it — the ordered sequence, the mapping whose keys are the positions as digit
strings (in any insertion order), and a JSON-encoded string of either — are
coerced by `_prepare_params` to the same canonical positional tuple: a
numeric-keyed mapping is sorted ascending by integer key and projected, a
plain sequence passes through as positional, a string is JSON-parsed and
re-coerced recursively, and a mapping with a non-numeric key passes through
unchanged. -/
theorem prepare_params_shape_equivalence
    (fuel : Nat) (l : List JVal) (es ds : List (String × JVal)) (s t : String)
    (hl : l ≠ [])
    (hes : es.Perm (canonicalMap l))
    (hs : json_loads s = some (JVal.arr l))
    (ht : json_loads t = some (JVal.obj es))
    (hds : ∃ kv ∈ ds, isDigitStr kv.1 = false) :
    prepare_params fuel (JVal.arr l) = Prep.tup l ∧
    prepare_params fuel (JVal.obj es) = Prep.tup l ∧
    prepare_params (fuel + 1) (JVal.str s) = Prep.tup l ∧
    prepare_params (fuel + 1) (JVal.str t) = Prep.tup l ∧
    prepare_params fuel (JVal.obj ds) = Prep.dict ds := by
  have hlE : l.isEmpty = false := by
    cases l with
    | nil => exact absurd rfl hl
    | cons a r => rfl
  have harr : prepare_params fuel (JVal.arr l) = Prep.tup l := by
    rw [prepare_params]
    simp [pyFalsy, hlE]
  have hesne : es ≠ [] := by
    intro h
    subst h
    have h0 := hes.length_eq
    simp only [canonicalMap] at h0
    rw [canonFrom_length] at h0
    exact hl (List.eq_nil_of_length_eq_zero h0.symm)
  have hesE : es.isEmpty = false := by
    cases es with
    | nil => exact absurd rfl hesne
    | cons a r => rfl
  have hobj : prepare_params fuel (JVal.obj es) = Prep.tup l := by
    rw [prepare_params]
    simp only [pyFalsy, hesE, Bool.false_eq_true, if_false]
    exact dictBranch_canonical hes
  have hdata : ∀ u : String, ∀ j, json_loads u = some j → u.data.isEmpty = false := by
    intro u j hu
    cases hd : u.data with
    | nil =>
      exfalso
      cases u with
      | mk d =>
        simp only at hd
        subst hd
        rw [show json_loads (String.mk []) = none from rfl] at hu
        exact Option.noConfusion hu
    | cons c r => rfl
  have hstr1 : prepare_params (fuel + 1) (JVal.str s) = Prep.tup l := by
    rw [prepare_params]
    simp only [pyFalsy, hdata s _ hs, Bool.false_eq_true, if_false]
    rw [hs]
    exact harr
  have hstr2 : prepare_params (fuel + 1) (JVal.str t) = Prep.tup l := by
    rw [prepare_params]
    simp only [pyFalsy, hdata t _ ht, Bool.false_eq_true, if_false]
    rw [ht]
    exact hobj
  have hdsne : ds ≠ [] := by
    obtain ⟨kv, hkv, -⟩ := hds
    exact List.ne_nil_of_mem hkv
  have hdsE : ds.isEmpty = false := by
    cases ds with
    | nil => exact absurd rfl hdsne
    | cons a r => rfl
  have hnotall : ds.all (fun kv => isDigitStr kv.1) = false := by
    obtain ⟨kv, hkv, hfalse⟩ := hds
    rw [List.all_eq_false]
    exact ⟨kv, hkv, by simp [hfalse]⟩
  have hdict : prepare_params fuel (JVal.obj ds) = Prep.dict ds := by
    rw [prepare_params]
    simp only [pyFalsy, hdsE, Bool.false_eq_true, if_false]
    unfold dictBranch
    rw [if_neg (by simp [hnotall])]
  exact ⟨harr, hobj, hstr1, hstr2, hdict⟩

theorem prepare_params_shape_equivalence_witness :
    prepare_params 1 (JVal.arr [JVal.num 10, JVal.num 20]) =
      Prep.tup [JVal.num 10, JVal.num 20] ∧
    prepare_params 1 (JVal.obj [("1", JVal.num 20), ("0", JVal.num 10)]) =
      Prep.tup [JVal.num 10, JVal.num 20] ∧
    prepare_params 2 (JVal.str "[10, 20]") = Prep.tup [JVal.num 10, JVal.num 20] ∧
    prepare_params 2 (JVal.str "\x7b\"1\": 20, \"0\": 10\x7d") =
      Prep.tup [JVal.num 10, JVal.num 20] ∧
    prepare_params 1 (JVal.obj [("x", JVal.num 1)]) =
      Prep.dict [("x", JVal.num 1)] :=
  prepare_params_shape_equivalence 1 [JVal.num 10, JVal.num 20]
    [("1", JVal.num 20), ("0", JVal.num 10)] [("x", JVal.num 1)]
    "[10, 20]" "\x7b\"1\": 20, \"0\": 10\x7d"
    (List.cons_ne_nil _ _)
    (by
      have hc : canonicalMap [JVal.num 10, JVal.num 20] =
          [("0", JVal.num 10), ("1", JVal.num 20)] := rfl
      rw [hc]
      exact List.Perm.swap ("0", JVal.num 10) ("1", JVal.num 20) [])
    rfl rfl
    ⟨("x", JVal.num 1), List.mem_cons_self _ _, rfl⟩

theorem add_row_sql_key_determined (table : String) (pk : Option String)
    {fd1 fd2 : List (String × JVal)} (h : fd1.map Prod.fst = fd2.map Prod.fst) :
    add_row_sql table pk fd1 = add_row_sql table pk fd2 := by
  have hcols : fd1.map (fun kv => quoteIdent kv.1) = fd2.map (fun kv => quoteIdent kv.1) := by
    have e1 : fd1.map (fun kv => quoteIdent kv.1) =
        (fd1.map Prod.fst).map (fun k => quoteIdent k) := by rw [List.map_map]; rfl
    have e2 : fd2.map (fun kv => quoteIdent kv.1) =
        (fd2.map Prod.fst).map (fun k => quoteIdent k) := by rw [List.map_map]; rfl
    rw [e1, h, ← e2]
  have hph : fd1.map (fun _ => "%s") = fd2.map (fun _ => "%s") := by
    have e1 : fd1.map (fun _ => "%s") = (fd1.map Prod.fst).map (fun _ => "%s") := by
      rw [List.map_map]; rfl
    have e2 : fd2.map (fun _ => "%s") = (fd2.map Prod.fst).map (fun _ => "%s") := by
      rw [List.map_map]; rfl
    rw [e1, h, ← e2]
  unfold add_row_sql
  rw [hcols, hph]

theorem modify_row_sql_key_determined (table cond : String)
    {cd1 cd2 : List (String × JVal)} (h : cd1.map Prod.fst = cd2.map Prod.fst) :
    modify_row_sql table cond cd1 = modify_row_sql table cond cd2 := by
  have hset : cd1.map (fun kv => quoteIdent kv.1 ++ " = %s") =
      cd2.map (fun kv => quoteIdent kv.1 ++ " = %s") := by
    have e1 : cd1.map (fun kv => quoteIdent kv.1 ++ " = %s") =
        (cd1.map Prod.fst).map (fun k => quoteIdent k ++ " = %s") := by
      rw [List.map_map]; rfl
    have e2 : cd2.map (fun kv => quoteIdent kv.1 ++ " = %s") =
        (cd2.map Prod.fst).map (fun k => quoteIdent k ++ " = %s") := by
      rw [List.map_map]; rfl
    rw [e1, h, ← e2]
  unfold modify_row_sql
  rw [hset]

/-- **C1 (amended).** The INSERT and UPDATE texts are functions of the table,
the primary key / condition, and the *filtered* column set alone: two calls
differing only in the supplied values produce identical statement text
whenever the null-vs-omit filtering retains the same column set, and the
values flow only into the separate bound-parameter tuple
(`tuple(filtered_data.values())`), never into the text. (The unamended claim
fails because an empty-string value for a non-nullable column changes the
filtered column set and hence the text; see the counterexample.) -/
theorem builder_sql_value_independent (table cond : String) (cols : List ColInfo)
    (pk : Option String) (d1 d2 : List (String × JVal))
    (ha : (filterData (add_nullable_columns cols) d1).map Prod.fst =
          (filterData (add_nullable_columns cols) d2).map Prod.fst)
    (hm : (filterData (modify_nullable_columns cols) d1).map Prod.fst =
          (filterData (modify_nullable_columns cols) d2).map Prod.fst) :
    add_row_sql table pk (filterData (add_nullable_columns cols) d1) =
      add_row_sql table pk (filterData (add_nullable_columns cols) d2) ∧
    modify_row_sql table cond (filterData (modify_nullable_columns cols) d1) =
      modify_row_sql table cond (filterData (modify_nullable_columns cols) d2) :=
  ⟨add_row_sql_key_determined table pk ha, modify_row_sql_key_determined table cond hm⟩

theorem builder_sql_value_independent_witness :
    add_row_sql "t" (some "id")
        (filterData (add_nullable_columns [⟨"a", "text", "NO"⟩]) [("a", JVal.str "x")]) =
      add_row_sql "t" (some "id")
        (filterData (add_nullable_columns [⟨"a", "text", "NO"⟩]) [("a", JVal.str "y")]) ∧
    modify_row_sql "t" "id = 1"
        (filterData (modify_nullable_columns [⟨"a", "text", "NO"⟩]) [("a", JVal.str "x")]) =
      modify_row_sql "t" "id = 1"
        (filterData (modify_nullable_columns [⟨"a", "text", "NO"⟩]) [("a", JVal.str "y")]) :=
  builder_sql_value_independent "t" "id = 1" [⟨"a", "text", "NO"⟩] (some "id")
    [("a", JVal.str "x")] [("a", JVal.str "y")] rfl rfl

/-- **C1 counterexample.** Two insert calls on the same table supplying the
same column set `{a, b}` and differing only in the value for the non-nullable
column `b` (`"2"` vs the empty string) produce different INSERT texts: the
empty value removes `b` from the statement, so the generated SQL is not
independent of the supplied values at a fixed supplied column set. -/
theorem builder_sql_value_dependent_cex :
    [("a", JVal.str "1"), ("b", JVal.str "2")].map Prod.fst =
      [("a", JVal.str "1"), ("b", JVal.str "")].map Prod.fst ∧
    add_row_sql "t" none
        (filterData (add_nullable_columns [⟨"a", "text", "NO"⟩, ⟨"b", "text", "NO"⟩])
          [("a", JVal.str "1"), ("b", JVal.str "2")]) ≠
      add_row_sql "t" none
        (filterData (add_nullable_columns [⟨"a", "text", "NO"⟩, ⟨"b", "text", "NO"⟩])
          [("a", JVal.str "1"), ("b", JVal.str "")]) := by
  refine ⟨rfl, ?_⟩
  decide

/-- **C3 (code bug).** At the failing input — a table whose only column `b`
is non-nullable, data `{b: ""}` — the insert builder omits the column
(nothing left to insert, `add_row` returns `None` without executing any
statement), while the update builder includes it as a bound NULL and runs
`UPDATE "t" SET "b" = %s WHERE id = 1`: `modify_row` builds its
`nullable_columns` list from *all* columns, dropping the
`is_nullable == 'YES'` filter that `add_row` applies, so the two builders do
not share the null-vs-omit policy. -/
theorem modify_row_nullable_policy_divergence :
    filterData (add_nullable_columns [⟨"b", "text", "NO"⟩]) [("b", JVal.str "")] = [] ∧
    filterData (modify_nullable_columns [⟨"b", "text", "NO"⟩]) [("b", JVal.str "")] =
      [("b", JVal.null)] ∧
    (modify_row "t" "id = 1" [⟨"b", "text", "NO"⟩] [("b", JVal.str "")] true none 1).1 =
      ⟨true, 1, "Updated 1 records"⟩ ∧
    (modify_row "t" "id = 1" [⟨"b", "text", "NO"⟩] [("b", JVal.str "")] true none 1).2 =
      [Event.introspection "get_table_info", Event.connect,
       Event.exec_update "UPDATE \"t\" SET \"b\" = %s WHERE id = 1",
       Event.commit, Event.close] ∧
    (add_row "t" [⟨"b", "text", "NO"⟩] none [("b", JVal.str "")] true none none) =
      (none, [Event.introspection "get_table_info"]) :=
  ⟨rfl, rfl, rfl, by decide, rfl⟩

/-- **C4 (code bug).** `safe_remove` on a table with one inbound foreign-key
edge whose dependent count is zero: the claim says the operation proceeds to
delete, but the count fetch `cursor.fetchone()[0]` is evaluated on a
`RealDictCursor` row (the connection is opened with the default
`dict_mode=True`), which has no positional access, so `KeyError(0)` is
raised on the first edge and the operation returns `{ok: False, msg: "0"}` —
without `has_relations`, without the relations enumeration, and without ever
executing a DELETE. The same crash pre-empts the blocking-edge enumeration
when counts are nonzero. -/
theorem safe_remove_keyerror :
    (safe_remove "parent" "id = 1" [⟨"child", "parent_id"⟩] (some "id")
        (fun _ => 0) 5).1 = ⟨false, 0, "0", false, []⟩ ∧
    ((safe_remove "parent" "id = 1" [⟨"child", "parent_id"⟩] (some "id")
        (fun _ => 0) 5).2.filterMap deleteSqlOf) = [] ∧
    (safe_remove "parent" "id = 1" [⟨"child", "parent_id"⟩] (some "id")
        (fun _ => 3) 5).1 = ⟨false, 0, "0", false, []⟩ := by
  refine ⟨rfl, by decide, rfl⟩

/-- **C9 (code bug).** A failed add-row — here the column introspection
returns no columns, so `db.add_row` returns `None` without inserting
anything — is answered by `POST /api/add` with `ok: true` and the success
message: `add_row` collapses every failure into the same `None` it returns
for a successful insert on a table without a primary key, and the handler
maps both branches to `ok: true`. -/
theorem api_add_reports_success_on_failure :
    (add_row "t" [] (some "id") [("a", JVal.str "x")] true none none).1 = none ∧
    (add_row "t" [] (some "id") [("a", JVal.str "x")] true none none).2 =
      [Event.introspection "get_table_info"] ∧
    (api_add (some "t") [("a", JVal.str "x")] [] (some "id") true none none).1.ok = true ∧
    (api_add (some "t") [("a", JVal.str "x")] [] (some "id") true none none).1.msg =
      "Запись добавлена" :=
  ⟨rfl, rfl, rfl, rfl⟩

theorem cascade_steps_deletes (table cond : String) (pk : Option String) :
    ∀ edges : List Edge,
      ((edges.map (cascadeStep table cond pk)).flatten).filterMap deleteSqlOf =
        edges.map (cascade_delete_sql table cond pk) := by
  intro edges
  induction edges with
  | nil => rfl
  | cons e rest ih => simp [cascadeStep, deleteSqlOf, ih]

theorem cascade_steps_deletes_comp (table cond : String) (pk : Option String) :
    ∀ edges : List Edge,
      (edges.map (List.filterMap deleteSqlOf ∘ cascadeStep table cond pk)).flatten =
        edges.map (cascade_delete_sql table cond pk) := by
  intro edges
  induction edges with
  | nil => rfl
  | cons e rest ih => simp [Function.comp, cascadeStep, deleteSqlOf, ih]

theorem commit_not_in_cascade_steps (table cond : String) (pk : Option String)
    (edges : List Edge) :
    Event.commit ∉ ((edges.map (cascadeStep table cond pk)).flatten) := by
  induction edges with
  | nil => simp
  | cons e rest ih => simp [cascadeStep, ih]

/-- **C5.** Cascade-mode delete: the dependent DELETE statements execute per
inbound edge in discovery order, each on the one cursor, and the target
DELETE comes last; on success the transaction commits and the reported count
is the rowcount of that final target statement alone (independent of the
cascade statements); if the i-th statement raises, the result is ok:false
carrying the driver error text, the trace contains no commit (the
transaction is never committed, so nothing persists), and the DELETEs that
ran are exactly the first i cascade statements — in particular the target
table DELETE never executed. -/
theorem remove_row_cascade_spec (table cond : String) (edges : List Edge)
    (pk : Option String) (errText : String) (rowcountOf : Nat → Nat)
    (hcond : emptyCondition cond = false) :
    ((remove_row table cond true edges pk true none errText rowcountOf).2.filterMap
        deleteSqlOf =
      edges.map (cascade_delete_sql table cond pk) ++ [delete_sql table cond]) ∧
    ((remove_row table cond true edges pk true none errText rowcountOf).1 =
      ⟨true, rowcountOf edges.length,
        "Removed " ++ natToStr (rowcountOf edges.length) ++ " records"⟩) ∧
    Event.commit ∈ (remove_row table cond true edges pk true none errText rowcountOf).2 ∧
    (∀ i, i < edges.length + 1 →
      (remove_row table cond true edges pk true (some i) errText rowcountOf).1 =
        ⟨false, 0, errText⟩ ∧
      Event.commit ∉ (remove_row table cond true edges pk true (some i) errText rowcountOf).2 ∧
      (remove_row table cond true edges pk true (some i) errText rowcountOf).2.filterMap
          deleteSqlOf =
        (edges.take i).map (cascade_delete_sql table cond pk)) := by
  have hsteps : ∀ i : Nat, i ≤ edges.length →
      ((edges.map (cascadeStep table cond pk) ++
        [[Event.exec_delete (delete_sql table cond)]]).take i) =
        ((edges.take i).map (cascadeStep table cond pk)) := by
    intro i hi
    rw [List.take_append_of_le_length (by simpa using hi), ← List.map_take]
  refine ⟨?_, ?_, ?_, ?_⟩
  · simp only [remove_row, hcond, Bool.false_eq_true, if_false, Bool.not_true, if_true]
    simp [cascade_steps_deletes_comp, deleteSqlOf, List.filterMap_append]
  · simp [remove_row, hcond]
  · simp [remove_row, hcond]
  · intro i hi
    refine ⟨?_, ?_, ?_⟩
    · simp [remove_row, hcond, hi]
    · simp only [remove_row, hcond, Bool.false_eq_true, if_false, Bool.not_true, if_true,
        if_pos hi]
      simp only [List.mem_append]
      push_neg
      refine ⟨⟨by simp, ?_⟩, ?_⟩
      · have h1 := commit_not_in_cascade_steps table cond pk (edges.take i)
        rw [hsteps i (by omega)]
        exact h1
      · cases hlt : decide (i < edges.length) with
        | true => simp [of_decide_eq_true hlt]
        | false => simp [of_decide_eq_false hlt]
    · simp only [remove_row, hcond, Bool.false_eq_true, if_false, Bool.not_true, if_true,
        if_pos hi]
      rw [List.filterMap_append, List.filterMap_append]
      rw [hsteps i (by omega), cascade_steps_deletes]
      have hpre : ([Event.connect] ++ [Event.introspection "get_related_tables"]).filterMap
          deleteSqlOf = [] := rfl
      cases hlt : decide (i < edges.length) with
      | true => simp [of_decide_eq_true hlt, deleteSqlOf]
      | false => simp [of_decide_eq_false hlt, deleteSqlOf]

theorem remove_row_cascade_spec_witness :
    emptyCondition "id = 1" = false ∧
    ((remove_row "parent" "id = 1" true [⟨"child", "parent_id"⟩] (some "id") true none
        "boom" (fun j => 2 * j + 1)).2.filterMap deleteSqlOf =
      [⟨"child", "parent_id"⟩].map (cascade_delete_sql "parent" "id = 1" (some "id")) ++
        [delete_sql "parent" "id = 1"]) ∧
    ((remove_row "parent" "id = 1" true [⟨"child", "parent_id"⟩] (some "id") true none
        "boom" (fun j => 2 * j + 1)).1 =
      ⟨true, 3, "Removed " ++ natToStr 3 ++ " records"⟩) ∧
    ((remove_row "parent" "id = 1" true [⟨"child", "parent_id"⟩] (some "id") true (some 0)
        "boom" (fun j => 2 * j + 1)).1 = ⟨false, 0, "boom"⟩) := by
  have h := remove_row_cascade_spec "parent" "id = 1" [⟨"child", "parent_id"⟩] (some "id")
    "boom" (fun j => 2 * j + 1) rfl
  exact ⟨rfl, h.1, h.2.1, (h.2.2.2 0 (by omega)).1⟩

/-- **C6.** For every table and every empty or whitespace-only condition
string, remove_row, safe_remove and modify_row return ok:false immediately
with the empty interaction trace: no database connection is opened and no
SQL statement — in particular no DELETE — is issued. -/
theorem empty_condition_rejected_without_db
    (table cond : String) (cascade : Bool) (edges : List Edge) (pk : Option String)
    (countOf : Edge → Nat) (cols : List ColInfo) (data : List (String × JVal))
    (connOk : Bool) (execErr : Option String) (failsAt : Option Nat)
    (errText : String) (rowcountOf : Nat → Nat) (rc : Nat)
    (h : emptyCondition cond = true) :
    remove_row table cond cascade edges pk connOk failsAt errText rowcountOf =
      (⟨false, 0, "Condition cannot be empty"⟩, []) ∧
    safe_remove table cond edges pk countOf rc =
      (⟨false, 0, "Condition cannot be empty", false, []⟩, []) ∧
    modify_row table cond cols data connOk execErr rc =
      (⟨false, 0, "Condition cannot be empty"⟩, []) := by
  refine ⟨?_, ?_, ?_⟩
  · unfold remove_row
    rw [if_pos h]
  · unfold safe_remove
    rw [if_pos h]
  · unfold modify_row
    rw [if_pos h]

theorem empty_condition_rejected_without_db_witness :
    emptyCondition "   " = true ∧
    remove_row "users" "   " true [] none true none "e" (fun _ => 0) =
      (⟨false, 0, "Condition cannot be empty"⟩, []) ∧
    safe_remove "users" "   " [] none (fun _ => 0) 0 =
      (⟨false, 0, "Condition cannot be empty", false, []⟩, []) ∧
    modify_row "users" "   " [] [] true none 0 =
      (⟨false, 0, "Condition cannot be empty"⟩, []) := by
  have h := empty_condition_rejected_without_db "users" "   " true [] none (fun _ => 0)
    [] [] true none none "e" (fun _ => 0) 0 rfl
  exact ⟨rfl, h.1, h.2.1, h.2.2⟩

theorem pack_step_isOk (backupErr : String → Option String)
    (backupFileOf : String → String) (rowsOf : String → Nat)
    (dropOk : String → Bool) (ts t : String) :
    ((pack_step backupErr backupFileOf rowsOf dropOk ts t).1).isOk =
      ((backupErr t).isNone && dropOk t) := by
  unfold pack_step
  cases backupErr t with
  | some e => simp [PackEntry.isOk]
  | none => cases hd : dropOk t <;> simp [hd, PackEntry.isOk]

theorem pack_results_count (backupErr : String → Option String)
    (backupFileOf : String → String) (rowsOf : String → Nat)
    (dropOk : String → Bool) (ts : String) :
    ∀ tables : List String,
      (((tables.map (pack_step backupErr backupFileOf rowsOf dropOk ts)).map
          Prod.fst).filter PackEntry.isOk).length =
        tables.countP (fun t => (backupErr t).isNone && dropOk t) := by
  intro tables
  induction tables with
  | nil => rfl
  | cons t rest ih =>
    simp only [List.map_cons, List.filter_cons, List.countP_cons]
    rw [pack_step_isOk]
    cases hp : ((backupErr t).isNone && dropOk t) with
    | true =>
      simp only [List.map_map] at ih
      simp [ih]
    | false =>
      simp only [List.map_map] at ih
      simp [ih]

theorem pack_tables_eq (present : String → Bool) (backupErr : String → Option String)
    (backupFileOf : String → String) (rowsOf : String → Nat) (dropOk : String → Bool)
    (folder ts : String) (tables : List String)
    (hne : tables.isEmpty = false) (hfil : tables.filter present = tables) :
    pack_tables present backupErr backupFileOf rowsOf dropOk folder ts tables =
      ((if ((tables.map (pack_step backupErr backupFileOf rowsOf dropOk ts)).map
            Prod.fst).all PackEntry.isOk then
          PackOutcome.success "Pack complete" folder
            ((((tables.map (pack_step backupErr backupFileOf rowsOf dropOk ts)).map
              Prod.fst).filter PackEntry.isOk).length) tables.length
            ((tables.map (pack_step backupErr backupFileOf rowsOf dropOk ts)).map Prod.fst)
        else if ((((tables.map (pack_step backupErr backupFileOf rowsOf dropOk ts)).map
            Prod.fst).filter PackEntry.isOk).length) > 0 then
          PackOutcome.success
            ("Partially packed: " ++
              natToStr ((((tables.map (pack_step backupErr backupFileOf rowsOf dropOk
                ts)).map Prod.fst).filter PackEntry.isOk).length) ++
              " of " ++ natToStr tables.length) folder
            ((((tables.map (pack_step backupErr backupFileOf rowsOf dropOk ts)).map
              Prod.fst).filter PackEntry.isOk).length) tables.length
            ((tables.map (pack_step backupErr backupFileOf rowsOf dropOk ts)).map Prod.fst)
        else PackOutcome.failure "Failed to pack any tables"),
       some ⟨ts,
         ((((tables.map (pack_step backupErr backupFileOf rowsOf dropOk ts)).map
           Prod.fst).filter PackEntry.isOk).length), tables.length,
         ((tables.map (pack_step backupErr backupFileOf rowsOf dropOk ts)).map Prod.fst)⟩,
       ((tables.map (pack_step backupErr backupFileOf rowsOf dropOk ts)).map
         Prod.snd).flatten ++ [PackEv.manifestWrite]) := by
  simp only [pack_tables, hne, Bool.false_eq_true, if_false, hfil]
  split_ifs <;> rfl

/-- **C7.** Pack over existing tables: each table is processed sequentially
in the order backup, tabular snapshot, structured snapshot, drop; a failed
backup records the error entry and skips the table's remaining steps; the
manifest, written in every case after the loop (also on total failure),
records one outcome per table plus the packed/total counts and the
timestamp; when at least one table succeeds the result is ok (a success
payload reporting packed = number of fully packed tables and total = n), and
when none succeeds the result is the failure value. -/
theorem pack_tables_partial_accounting (present : String → Bool)
    (backupErr : String → Option String) (backupFileOf : String → String)
    (rowsOf : String → Nat) (dropOk : String → Bool) (folder ts : String)
    (tables : List String) (hne : tables ≠ [])
    (hpresent : ∀ t ∈ tables, present t = true) :
    (pack_tables present backupErr backupFileOf rowsOf dropOk folder ts tables).2.1 =
      some ⟨ts, tables.countP (fun t => (backupErr t).isNone && dropOk t), tables.length,
        (tables.map (pack_step backupErr backupFileOf rowsOf dropOk ts)).map Prod.fst⟩ ∧
    (pack_tables present backupErr backupFileOf rowsOf dropOk folder ts tables).2.2 =
      ((tables.map (pack_step backupErr backupFileOf rowsOf dropOk ts)).map
        Prod.snd).flatten ++ [PackEv.manifestWrite] ∧
    (∀ t, (pack_step backupErr backupFileOf rowsOf dropOk ts t).2 =
      [PackEv.backup t] ++
        (if (backupErr t).isNone then
          (if rowsOf t > 0 then [PackEv.excelWrite t] else []) ++
            [PackEv.jsonWrite t, PackEv.dropTable t]
         else [])) ∧
    (0 < tables.countP (fun t => (backupErr t).isNone && dropOk t) →
      ∃ m, (pack_tables present backupErr backupFileOf rowsOf dropOk folder ts tables).1 =
        PackOutcome.success m folder
          (tables.countP (fun t => (backupErr t).isNone && dropOk t)) tables.length
          ((tables.map (pack_step backupErr backupFileOf rowsOf dropOk ts)).map
            Prod.fst)) ∧
    (tables.countP (fun t => (backupErr t).isNone && dropOk t) = 0 →
      (pack_tables present backupErr backupFileOf rowsOf dropOk folder ts tables).1 =
        PackOutcome.failure "Failed to pack any tables") := by
  have hTE : tables.isEmpty = false := by
    cases tables with
    | nil => exact absurd rfl hne
    | cons a r => rfl
  have hfil : tables.filter present = tables := List.filter_eq_self.mpr hpresent
  have hcnt := pack_results_count backupErr backupFileOf rowsOf dropOk ts tables
  rw [pack_tables_eq present backupErr backupFileOf rowsOf dropOk folder ts tables hTE hfil]
  refine ⟨by rw [← hcnt], rfl, ?_, ?_, ?_⟩
  · intro t
    unfold pack_step
    cases hb : backupErr t with
    | some e => simp
    | none => cases hd : dropOk t <;> simp
  · intro hpos
    have hpos2 : ((((tables.map (pack_step backupErr backupFileOf rowsOf dropOk ts)).map
        Prod.fst).filter PackEntry.isOk).length) > 0 := by
      rw [hcnt]
      exact hpos
    by_cases hag : (((tables.map (pack_step backupErr backupFileOf rowsOf dropOk
        ts)).map Prod.fst).all PackEntry.isOk) = true
    · exact ⟨"Pack complete", by rw [if_pos hag, ← hcnt]⟩
    · exact ⟨"Partially packed: " ++
        natToStr ((((tables.map (pack_step backupErr backupFileOf rowsOf dropOk ts)).map
          Prod.fst).filter PackEntry.isOk).length) ++ " of " ++ natToStr tables.length,
        by rw [if_neg hag, if_pos hpos2, ← hcnt]⟩
  · intro h0
    have h02 : ((((tables.map (pack_step backupErr backupFileOf rowsOf dropOk ts)).map
        Prod.fst).filter PackEntry.isOk).length) = 0 := by
      rw [hcnt]
      exact h0
    have hnag : ¬((((tables.map (pack_step backupErr backupFileOf rowsOf dropOk
        ts)).map Prod.fst).all PackEntry.isOk) = true) := by
      intro hag
      have hsame : ((tables.map (pack_step backupErr backupFileOf rowsOf dropOk ts)).map
          Prod.fst).filter PackEntry.isOk =
          (tables.map (pack_step backupErr backupFileOf rowsOf dropOk ts)).map Prod.fst :=
        List.filter_eq_self.mpr (List.all_eq_true.mp hag)
      rw [hsame] at h02
      simp only [List.length_map] at h02
      exact hne (List.eq_nil_of_length_eq_zero h02)
    rw [if_neg hnag, if_neg (by omega)]

theorem pack_tables_partial_accounting_witness :
    (∃ m, (pack_tables (fun _ => true)
        (fun t => if t == "t2" then some "boom" else none) (fun t => t ++ ".backup")
        (fun _ => 1) (fun _ => true) "arch" "120000" ["t1", "t2", "t3"]).1 =
      PackOutcome.success m "arch" 2 3
        ((["t1", "t2", "t3"].map (pack_step
          (fun t => if t == "t2" then some "boom" else none) (fun t => t ++ ".backup")
          (fun _ => 1) (fun _ => true) "120000")).map Prod.fst)) ∧
    (pack_tables (fun _ => true) (fun t => if t == "t2" then some "boom" else none)
        (fun t => t ++ ".backup") (fun _ => 1) (fun _ => true) "arch" "120000"
        ["t1", "t2", "t3"]).2.1 =
      some ⟨"120000", 2, 3,
        ((["t1", "t2", "t3"].map (pack_step
          (fun t => if t == "t2" then some "boom" else none) (fun t => t ++ ".backup")
          (fun _ => 1) (fun _ => true) "120000")).map Prod.fst)⟩ := by
  have h := pack_tables_partial_accounting (fun _ => true)
    (fun t => if t == "t2" then some "boom" else none) (fun t => t ++ ".backup")
    (fun _ => 1) (fun _ => true) "arch" "120000" ["t1", "t2", "t3"]
    (by simp) (fun t _ => rfl)
  obtain ⟨m, hm⟩ := h.2.2.2.1 (by decide)
  exact ⟨⟨m, hm⟩, h.1⟩

theorem restore_eq (bf : String) (tables : List String) (dropFailsAt : Option Nat)
    (rc : Nat) (stdout stderr : String) :
    restore_from_backup bf true tables dropFailsAt rc stdout stderr =
      ((if strContains (stdout ++ stderr) transaction_timeout_warning then
          (true, "Restored (some warnings ignored)")
        else if rc == 0 then (true, "Restore successful")
        else (false, "pg_restore error:\n" ++ stderr ++ "\n" ++ stdout)),
       (match dropFailsAt with
        | none => tables.map RestoreEv.dropOne ++ [RestoreEv.dropCommit]
        | some i => (tables.take i).map RestoreEv.dropOne) ++ [RestoreEv.runRestore]) := by
  unfold restore_from_backup
  simp only [Bool.not_true, Bool.false_eq_true, if_false]
  split_ifs <;> rfl

/-- **C8.** Restore on an existing backup file: the existing public tables
are dropped first, best-effort — an exception at the i-th drop stops the
drop loop but never aborts the restore, whose subprocess invocation is the
last step of the trace in every case; if the combined stdout+stderr contains
the benign `transaction_timeout` warning substring, the result is
success-with-warning regardless of the exit code; any other nonzero exit is
a hard failure whose message carries the combined stderr and stdout. -/
theorem restore_policy (bf : String) (tables : List String)
    (dropFailsAt : Option Nat) (rc : Nat) (stdout stderr : String) :
    ((restore_from_backup bf true tables dropFailsAt rc stdout stderr).2.getLast? =
      some RestoreEv.runRestore) ∧
    (∀ i, dropFailsAt = some i →
      (restore_from_backup bf true tables dropFailsAt rc stdout stderr).2 =
        (tables.take i).map RestoreEv.dropOne ++ [RestoreEv.runRestore]) ∧
    (dropFailsAt = none →
      (restore_from_backup bf true tables dropFailsAt rc stdout stderr).2 =
        tables.map RestoreEv.dropOne ++ [RestoreEv.dropCommit] ++ [RestoreEv.runRestore]) ∧
    (strContains (stdout ++ stderr) transaction_timeout_warning = true →
      (restore_from_backup bf true tables dropFailsAt rc stdout stderr).1 =
        (true, "Restored (some warnings ignored)")) ∧
    (strContains (stdout ++ stderr) transaction_timeout_warning = false → rc ≠ 0 →
      (restore_from_backup bf true tables dropFailsAt rc stdout stderr).1 =
        (false, "pg_restore error:\n" ++ stderr ++ "\n" ++ stdout)) := by
  rw [restore_eq]
  refine ⟨?_, ?_, ?_, ?_, ?_⟩
  · exact List.getLast?_concat _
  · intro i hi
    rw [hi]
  · intro hi
    rw [hi]
  · intro hsc
    simp [hsc]
  · intro hsc hrc
    simp [hsc, hrc]

theorem restore_policy_witness :
    ((restore_from_backup "b.backup" true ["a", "b"] (some 1) 1 ""
        "pg_restore: unrecognized configuration parameter \"transaction_timeout\"").2 =
      [RestoreEv.dropOne "a", RestoreEv.runRestore]) ∧
    ((restore_from_backup "b.backup" true ["a", "b"] (some 1) 1 ""
        "pg_restore: unrecognized configuration parameter \"transaction_timeout\"").1 =
      (true, "Restored (some warnings ignored)")) ∧
    ((restore_from_backup "b.backup" true ["a", "b"] none 1 "" "fatal: broken").1 =
      (false, "pg_restore error:\n" ++ "fatal: broken" ++ "\n" ++ "")) := by
  have h1 := restore_policy "b.backup" ["a", "b"] (some 1) 1 ""
    "pg_restore: unrecognized configuration parameter \"transaction_timeout\""
  have h2 := restore_policy "b.backup" ["a", "b"] none 1 "" "fatal: broken"
  exact ⟨h1.2.1 1 rfl, h1.2.2.2.1 rfl, h2.2.2.2.2 rfl (by omega)⟩

/-- **C10.** Requesting a saved ad-hoc query result in csv format never
produces a CSV file: `save_query_to_csv` delegates unchanged to the
staging-table xlsx path under the fixed name `query_result`, every artifact
it returns is an `.xlsx` workbook path/name, and the HTTP handler names the
download `sql_result_<ts>.xlsx` even under the csv format flag. -/
theorem save_query_csv_is_xlsx (data : List (List (String × JVal)))
    (dir ts ts2 : String) (connOk : Bool) (stagingErr : Option String)
    (hne : data ≠ []) :
    save_query_to_csv data dir ts connOk stagingErr =
      save_query_to_xlsx data "query_result" dir ts connOk stagingErr ∧
    (∀ path fn, save_query_to_csv data dir ts connOk stagingErr = (some path, fn) →
      fn = "query_result" ++ "_" ++ ts ++ ".xlsx" ∧
      ".xlsx".data <:+ fn.data ∧ ".xlsx".data <:+ path.data) ∧
    save_sql_result_download_name ts2 = "sql_result_" ++ ts2 ++ ".xlsx" ∧
    ".xlsx".data <:+ (save_sql_result_download_name ts2).data := by
  have hE : data.isEmpty = false := by
    cases data with
    | nil => exact absurd rfl hne
    | cons a r => rfl
  have hdel : save_query_to_csv data dir ts connOk stagingErr =
      save_query_to_xlsx data "query_result" dir ts connOk stagingErr := by
    unfold save_query_to_csv
    rw [if_neg (by simp [hE])]
  refine ⟨hdel, ?_, rfl, ?_⟩
  · intro path fn h
    rw [hdel] at h
    unfold save_query_to_xlsx at h
    rw [if_neg (by simp [hE])] at h
    cases connOk with
    | false => simp at h
    | true =>
      cases stagingErr with
      | some e => simp at h
      | none =>
        simp only [Bool.not_true, Bool.false_eq_true, if_false, Prod.mk.injEq,
          Option.some.injEq] at h
        obtain ⟨hpath, hfn⟩ := h
        subst hpath
        subst hfn
        refine ⟨rfl, ?_, ?_⟩
        · rw [String.data_append]
          exact List.suffix_append _ _
        · rw [String.data_append, String.data_append]
          exact (List.suffix_append _ _).trans (List.suffix_append _ _)
  · unfold save_sql_result_download_name
    rw [String.data_append]
    exact List.suffix_append _ _

theorem save_query_csv_is_xlsx_witness :
    save_query_to_csv [[("col", JVal.str "v")]] "/app/exports/d" "123456" true none =
      save_query_to_xlsx [[("col", JVal.str "v")]] "query_result" "/app/exports/d"
        "123456" true none ∧
    ".xlsx".data <:+ ("query_result" ++ "_" ++ "123456" ++ ".xlsx").data ∧
    ".xlsx".data <:+ (save_sql_result_download_name "20240101").data := by
  have h := save_query_csv_is_xlsx [[("col", JVal.str "v")]] "/app/exports/d" "123456"
    "20240101" true none (by simp)
  have h2 := h.2.1 ("/app/exports/d" ++ "/" ++ ("query_result" ++ "_" ++ "123456" ++ ".xlsx"))
    ("query_result" ++ "_" ++ "123456" ++ ".xlsx") rfl
  exact ⟨h.1, h2.2.1, h.2.2.2⟩
